import Mathlib

/-!
Verification of the EM-Tracker replay/consume pipeline (`em_util.py`).

The shallow embedding follows the Python source: `pack_sensor_data` /
`unpack_sensor_data` embed `struct.pack('<iqfffffff', ...)` and
`struct.unpack('<iqfffffff', ...)`; `replayRun` embeds the `replay`
function's non-looping behaviour (events are the emitted multipart
messages and the `time.sleep` suspensions); `consumeLoop` embeds the
`consume` receive loop; `subTopics`/`delivered` embed the ZMQ SUB
subscriptions and the channel's prefix-based topic matching.

Machine integers are modelled as `Int` with explicit two's-complement
reduction; the seven single-precision float fields are carried as their
32-bit IEEE-754 bit patterns (the codec only moves the four raw bytes of
each float, so the bit pattern is the exact information content on the
wire).
-/

/-- One row of sensor data as `replay` sees it after column renaming:
`sensor_id` (coerced to int), `time` (integer milliseconds) and the seven
float fields `x, y, z, qw, qx, qy, qz`, each held as its IEEE-754
single-precision bit pattern. -/
structure Row where
  sensor_id : Int
  time : Int
  x : Nat
  y : Nat
  z : Nat
  qw : Nat
  qx : Nat
  qy : Nat
  qz : Nat
  deriving DecidableEq, Repr

/-- Little-endian serialization of a value into `n` bytes, as the `'<'`
byte order of the struct format string lays fields out on the wire. -/
def leBytes : Nat → Nat → List Nat
  | 0, _ => []
  | n + 1, v => v % 256 :: leBytes n (v / 256)

/-- Little-endian valuation of a byte list (inverse direction of
`leBytes`). -/
def leVal : List Nat → Nat
  | [] => 0
  | b :: bs => b + 256 * leVal bs

/-- Reinterpretation of a `w`-byte unsigned value as a signed integer
(two's complement), as `struct.unpack` does for the `'i'` and `'q'`
fields. -/
def toSigned (w : Nat) (v : Nat) : Int :=
  if v < 2 ^ (8 * w - 1) then (v : Int) else (v : Int) - 2 ^ (8 * w)

/-- Two's-complement encoding of a signed integer into the unsigned range
of `w` bytes, as `struct.pack` stores the `'i'` and `'q'` fields. -/
def twosComp (w : Nat) (i : Int) : Nat :=
  (i % ((2 : Int) ^ (8 * w))).toNat

/-- The 40 payload bytes produced by
`struct.pack('<iqfffffff', sensor_id, time, x, y, z, qw, qx, qy, qz)`:
a 4-byte signed int, an 8-byte signed int, then the seven 4-byte floats,
all little-endian. -/
def frameBytes (r : Row) : List Nat :=
  leBytes 4 (twosComp 4 r.sensor_id) ++ (leBytes 8 (twosComp 8 r.time) ++
  (leBytes 4 r.x ++ (leBytes 4 r.y ++ (leBytes 4 r.z ++
  (leBytes 4 r.qw ++ (leBytes 4 r.qx ++ (leBytes 4 r.qy ++ leBytes 4 r.qz)))))))

/-- `pack_sensor_data` (em_util.py line 16): `struct.pack` raises
`struct.error` exactly when an integer argument does not fit its field
(`'i'`: signed 32-bit, `'q'`: signed 64-bit); that exception is modelled
as `none`.  The float fields are 32-bit patterns and always pack. -/
def pack_sensor_data (r : Row) : Option (List Nat) :=
  if -(2 ^ 31) ≤ r.sensor_id ∧ r.sensor_id < 2 ^ 31 ∧
     -(2 ^ 63) ≤ r.time ∧ r.time < 2 ^ 63 then
    some (frameBytes r)
  else none

/-- `unpack_sensor_data` (em_util.py line 24): `struct.unpack('<iqfffffff', b)`
raises `struct.error` (modelled as `none`) exactly when `len(b)` differs
from `calcsize('<iqfffffff') = 40`; otherwise it reads the fields
sequentially: 4-byte signed int, 8-byte signed int, seven 4-byte floats. -/
def unpack_sensor_data (bs : List Nat) : Option Row :=
  if bs.length = 40 then
    let r1 := bs.drop 4
    let r2 := r1.drop 8
    let r3 := r2.drop 4
    let r4 := r3.drop 4
    let r5 := r4.drop 4
    let r6 := r5.drop 4
    let r7 := r6.drop 4
    let r8 := r7.drop 4
    some { sensor_id := toSigned 4 (leVal (bs.take 4))
         , time := toSigned 8 (leVal (r1.take 8))
         , x := leVal (r2.take 4)
         , y := leVal (r3.take 4)
         , z := leVal (r4.take 4)
         , qw := leVal (r5.take 4)
         , qx := leVal (r6.take 4)
         , qy := leVal (r7.take 4)
         , qz := leVal (r8.take 4) }
  else none

/-- A well-formed Sample: integer fields representable in their wire
widths, float fields genuine 32-bit patterns. -/
def wellFormedRow (r : Row) : Prop :=
  -(2 ^ 31) ≤ r.sensor_id ∧ r.sensor_id < 2 ^ 31 ∧
  -(2 ^ 63) ≤ r.time ∧ r.time < 2 ^ 63 ∧
  r.x < 2 ^ 32 ∧ r.y < 2 ^ 32 ∧ r.z < 2 ^ 32 ∧
  r.qw < 2 ^ 32 ∧ r.qx < 2 ^ 32 ∧ r.qy < 2 ^ 32 ∧ r.qz < 2 ^ 32

instance (r : Row) : Decidable (wellFormedRow r) := by
  unfold wellFormedRow; infer_instance

/-- Per-sensor topic (em_util.py line 65): the string
`f"sensor/em/{int(row['sensor_id'])}"`, as a character list (the code
sends its UTF-8 bytes; all characters involved are ASCII). -/
def topicFor (sid : Int) : List Char :=
  "sensor/em/".toList ++ (toString sid).toList

/-- The sentinel end-of-stream topic `control/done` (em_util.py line 79). -/
def sentinelTopic : List Char := "control/done".toList

/-- An observable action of the publisher: sending one multipart message
`[topic, payload]`, or suspending via `time.sleep` for the given number
of seconds (exact rational, the scheduled duration). -/
inductive PubEvent where
  | emit (topic : List Char) (payload : List Nat)
  | sleep (secs : ℚ)
  deriving DecidableEq, Repr

/-- Pairwise differences of a list of timestamps against a running
predecessor. -/
def diffsFrom : Int → List Int → List Int
  | _, [] => []
  | prev, t :: ts => (t - prev) :: diffsFrom t ts

/-- `np.diff(df['time'], prepend=df['time'].iloc[0])` (em_util.py line 59):
on an empty source `iloc[0]` raises `IndexError` (modelled as `none`),
which the generic `except Exception` clause catches, so the replay loop
and the sentinel send are never reached; on a nonempty source the first
entry is `t0 - t0 = 0`, then successive differences.  (The division by
1000 happens where the sleep is issued.) -/
def timeDiffs : List Int → Option (List Int)
  | [] => none
  | t0 :: ts => some (diffsFrom t0 (t0 :: ts))

/-- One pass of the replay `for` loop (em_util.py lines 64-70): for each
row, send `[topic, pack_sensor_data(row)]`, then
`time.sleep(time_diffs[i])` when `i < len(time_diffs)` and
`time_diffs[i] > 0` (the stored diffs are seconds = milliseconds/1000).
The `cut` argument models an exception arriving from outside the loop
body (`KeyboardInterrupt`/`SystemExit` or a read failure) after that many
rows have been fully processed: it aborts the pass at that point — also
when no rows remain, i.e. a pending exception that fires between the last
processed row and the sentinel send; a `pack_sensor_data` failure
likewise raises and stops the loop.  The returned flag is `true` when the
pass ran to completion without an exception. -/
def runPass : List Row → List Int → Option Nat → List PubEvent × Bool
  | [], _, cut => if cut = some 0 then ([], false) else ([], true)
  | r :: rs, ds, cut =>
    if cut = some 0 then ([], false)
    else
      match pack_sensor_data r with
      | none => ([], false)
      | some payload =>
        let sleeps : List PubEvent :=
          match ds.head? with
          | some d => if 0 < d then [PubEvent.sleep ((d : ℚ) / 1000)] else []
          | none => []
        let rest := runPass rs ds.tail (cut.map fun k => k - 1)
        (PubEvent.emit (topicFor r.sensor_id) payload :: (sleeps ++ rest.1), rest.2)

/-- The observable outcome of one `replay` invocation. -/
structure ReplayResult where
  events : List PubEvent
  sentinelSent : Bool
  socketClosed : Bool
  contextTerminated : Bool
  deriving DecidableEq, Repr

/-- Continuation of `replay` after the delay computation of line 59
(still inside the `try`): if that computation raised (`none`, the empty
source), the exception jumps straight to `except Exception` and then to
the `finally` block — only the startup pause happened, nothing was
emitted and no sentinel is sent; otherwise run one pass of the loop, and
only when the pass completes normally does control reach line 79, which
sends the sentinel `[b'control/done', b'']` and sleeps 1 s — an
exception during the pass skips the sentinel.  The `finally` block
closes the socket and terminates the context on every one of these
paths. -/
def replayAfterDiffs (rows : List Row) (cut : Option Nat) :
    Option (List Int) → ReplayResult
  | none =>
    { events := [PubEvent.sleep 1]
    , sentinelSent := false, socketClosed := true, contextTerminated := true }
  | some ds =>
    let p := runPass rows ds cut
    if p.2 then
      { events := PubEvent.sleep 1 ::
          (p.1 ++ [PubEvent.emit sentinelTopic [], PubEvent.sleep 1])
      , sentinelSent := true, socketClosed := true, contextTerminated := true }
    else
      { events := PubEvent.sleep 1 :: p.1
      , sentinelSent := false, socketClosed := true, contextTerminated := true }

/-- The `replay` function (em_util.py lines 31-89) for a non-looping run
(`loop_data=False`).  If the file is missing it returns before opening
the socket.  Otherwise: open and bind the socket, `time.sleep(1)`,
compute the inter-sample delays (which raises on an empty source), and
continue as in `replayAfterDiffs`. -/
def replayRun (fileExists : Bool) (rows : List Row) (cut : Option Nat) :
    ReplayResult :=
  if fileExists then
    replayAfterDiffs rows cut (timeDiffs (rows.map (·.time)))
  else
    { events := [], sentinelSent := false
    , socketClosed := false, contextTerminated := false }

/-- The topics the consumer subscribes to (em_util.py lines 104-106):
`sensor/em/1` .. `sensor/em/N`, then `control/done`. -/
def subTopics (N : Nat) : List (List Char) :=
  ((List.range N).map fun i => topicFor ((i + 1 : Nat) : Int)) ++ [sentinelTopic]

/-- Channel-side topic filtering.  A ZMQ SUB socket delivers a multipart
message exactly when one of its subscription strings is a byte-wise
prefix of the message's first part (libzmq subscription matching is
prefix matching; an empty subscription would match everything). -/
def delivered (N : Nat) (topic : List Char) : Bool :=
  (subTopics N).any fun s => s.isPrefixOf topic

/-- How one run of the consumer's receive loop ended. -/
inductive LoopExit where
  | blocked
  | doneBreak
  | crashed
  deriving DecidableEq, Repr

/-- The consumer's receive loop (em_util.py lines 109-122) applied to the
finite list of messages the channel delivers to it, in order.  For each
`[topic, payload]`: on `control/done` it breaks; otherwise it calls
`unpack_sensor_data(payload)` — whose `struct.error` is NOT caught by the
surrounding `except (KeyboardInterrupt, SystemExit)` clause, so a decode
failure propagates and ends the loop (`crashed`) — and on success prints
the decoded tuple (here: appends it to the surfaced list).  If the
message list runs out the loop is still blocked in `recv_multipart`. -/
def consumeLoop : List (List Char × List Nat) → List Row × LoopExit
  | [] => ([], LoopExit.blocked)
  | (t, p) :: rest =>
    if t = sentinelTopic then ([], LoopExit.doneBreak)
    else
      match unpack_sensor_data p with
      | none => ([], LoopExit.crashed)
      | some s =>
        let r := consumeLoop rest
        (s :: r.1, r.2)

/-- The observable outcome of the consumer on a delivered message list. -/
structure ConsumeResult where
  surfaced : List Row
  exitKind : LoopExit
  socketClosed : Bool
  deriving DecidableEq, Repr

/-- The `consume` function (em_util.py lines 94-129) on the messages the
channel delivers: run the receive loop; the `finally` block closes the
socket whenever the function exits (break, or an uncaught exception) —
when the loop is still blocked in `recv_multipart` the socket is still
open. -/
def consume (msgs : List (List Char × List Nat)) : ConsumeResult :=
  let r := consumeLoop msgs
  { surfaced := r.1
  , exitKind := r.2
  , socketClosed := match r.2 with
      | LoopExit.blocked => false
      | _ => true }

/-- The per-claim reference behaviour of one replay pass, written from
the claim's words (claim C6 / spec 4.3 steps 2-3): for each sample in
order, first emit its frame on its per-sensor topic, then suspend for
`(currentTimestamp - previousTimestamp) / 1000` seconds when that value
is positive and not at all otherwise; the first sample has zero delay. -/
def specLoopEvents : Option Int → List Row → List PubEvent
  | _, [] => []
  | prev, r :: rs =>
    PubEvent.emit (topicFor r.sensor_id) (frameBytes r) ::
      ((match prev with
        | none => []
        | some tp =>
          if 0 < r.time - tp then
            [PubEvent.sleep (((r.time - tp : Int) : ℚ) / 1000)]
          else []) ++
       specLoopEvents (some r.time) rs)

/-- The messages among a publisher event list, in order. -/
def emitsOf : List PubEvent → List (List Char × List Nat)
  | [] => []
  | PubEvent.emit t p :: rest => (t, p) :: emitsOf rest
  | PubEvent.sleep _ :: rest => emitsOf rest

/-- Drop everything up to and including the `k`-th (0-based) emission. -/
def dropThroughEmit : Nat → List PubEvent → List PubEvent
  | _, [] => []
  | 0, PubEvent.emit _ _ :: rest => rest
  | k + 1, PubEvent.emit _ _ :: rest => dropThroughEmit k rest
  | k, PubEvent.sleep _ :: rest => dropThroughEmit k rest

/-- Total suspension before the next emission (or the end of the run). -/
def sleepsUntilNextEmit : List PubEvent → ℚ
  | [] => 0
  | PubEvent.emit _ _ :: _ => 0
  | PubEvent.sleep d :: rest => d + sleepsUntilNextEmit rest

/-- Total scheduled suspension between the `k`-th emission and the one
after it. -/
def gapAfterEmit (k : Nat) (evs : List PubEvent) : ℚ :=
  sleepsUntilNextEmit (dropThroughEmit k evs)

/-! ### Codec lemmas -/

theorem leBytes_length (n v : Nat) : (leBytes n v).length = n := by
  induction n generalizing v with
  | zero => rfl
  | succ n ih => simp [leBytes, ih]

theorem leVal_leBytes (n v : Nat) : leVal (leBytes n v) = v % 256 ^ n := by
  induction n generalizing v with
  | zero => simp [leBytes, leVal, Nat.mod_one]
  | succ n ih =>
    show v % 256 + 256 * leVal (leBytes n (v / 256)) = v % 256 ^ (n + 1)
    rw [ih, pow_succ', Nat.mod_mul]

theorem mem_leBytes_lt (n v : Nat) : ∀ b ∈ leBytes n v, b < 256 := by
  induction n generalizing v with
  | zero => simp [leBytes]
  | succ n ih =>
    intro b hb
    rcases List.mem_cons.mp hb with h | h
    · subst h; omega
    · exact ih _ b h

theorem leVal_lt (bs : List Nat) (h : ∀ b ∈ bs, b < 256) :
    leVal bs < 256 ^ bs.length := by
  induction bs with
  | nil => simp [leVal]
  | cons b bs ih =>
    have hb : b < 256 := h b (List.mem_cons_self b bs)
    have ih' := ih fun x hx => h x (List.mem_cons_of_mem b hx)
    show b + 256 * leVal bs < 256 ^ (bs.length + 1)
    rw [pow_succ']
    have : 256 * (leVal bs + 1) ≤ 256 * 256 ^ bs.length :=
      Nat.mul_le_mul_left 256 (Nat.succ_le_of_lt ih')
    omega

theorem leVal_leBytes_of_lt (v : Nat) (hv : v < 2 ^ 32) :
    leVal (leBytes 4 v) = v := by
  rw [leVal_leBytes]
  have : (256 : Nat) ^ 4 = 2 ^ 32 := by norm_num
  rw [this]
  omega

theorem toSigned_twosComp_four (i : Int) (h1 : -(2 ^ 31) ≤ i) (h2 : i < 2 ^ 31) :
    toSigned 4 (leVal (leBytes 4 (twosComp 4 i))) = i := by
  rw [leVal_leBytes]
  unfold twosComp toSigned
  norm_num
  split <;> omega

theorem toSigned_twosComp_eight (i : Int) (h1 : -(2 ^ 63) ≤ i) (h2 : i < 2 ^ 63) :
    toSigned 8 (leVal (leBytes 8 (twosComp 8 i))) = i := by
  rw [leVal_leBytes]
  unfold twosComp toSigned
  norm_num
  split <;> omega

theorem toSigned_four_range (v : Nat) (hv : v < 2 ^ 32) :
    -(2 ^ 31) ≤ toSigned 4 v ∧ toSigned 4 v < 2 ^ 31 := by
  unfold toSigned
  norm_num
  split <;> omega

theorem toSigned_eight_range (v : Nat) (hv : v < 2 ^ 64) :
    -(2 ^ 63) ≤ toSigned 8 v ∧ toSigned 8 v < 2 ^ 63 := by
  unfold toSigned
  norm_num
  split <;> omega

theorem take_leBytes_append (n v : Nat) (l : List Nat) :
    (leBytes n v ++ l).take n = leBytes n v := by
  have h := List.take_left (leBytes n v) l
  rwa [leBytes_length] at h

theorem drop_leBytes_append (n v : Nat) (l : List Nat) :
    (leBytes n v ++ l).drop n = l := by
  have h := List.drop_left (leBytes n v) l
  rwa [leBytes_length] at h

theorem take_leBytes_self (n v : Nat) : (leBytes n v).take n = leBytes n v := by
  have h := List.take_length (leBytes n v)
  rwa [leBytes_length] at h

theorem pack_eq_of_wf (r : Row) (h : wellFormedRow r) :
    pack_sensor_data r = some (frameBytes r) := by
  unfold pack_sensor_data
  exact if_pos ⟨h.1, h.2.1, h.2.2.1, h.2.2.2.1⟩

theorem frameBytes_length (r : Row) : (frameBytes r).length = 40 := by
  simp [frameBytes, leBytes_length]

theorem unpack_frameBytes (r : Row) (h : wellFormedRow r) :
    unpack_sensor_data (frameBytes r) = some r := by
  obtain ⟨h1, h2, h3, h4, hx, hy, hz, hqw, hqx, hqy, hqz⟩ := h
  unfold unpack_sensor_data
  rw [if_pos (frameBytes_length r)]
  unfold frameBytes
  simp only [take_leBytes_append, drop_leBytes_append, take_leBytes_self]
  rw [toSigned_twosComp_four r.sensor_id h1 h2,
      toSigned_twosComp_eight r.time h3 h4,
      leVal_leBytes_of_lt r.x hx, leVal_leBytes_of_lt r.y hy,
      leVal_leBytes_of_lt r.z hz, leVal_leBytes_of_lt r.qw hqw,
      leVal_leBytes_of_lt r.qx hqx, leVal_leBytes_of_lt r.qy hqy,
      leVal_leBytes_of_lt r.qz hqz]

/-! ### Claims about the frame codec -/

/-- Claim C5: for every well-formed Sample (sensor id in signed 32-bit
range, timestamp in signed 64-bit range, seven single-precision float
patterns), decoding the encoded frame returns the same nine field values,
bit-for-bit on the float fields. -/
theorem claim_C5_roundtrip (r : Row) (h : wellFormedRow r) :
    ∃ f, pack_sensor_data r = some f ∧ unpack_sensor_data f = some r :=
  ⟨frameBytes r, pack_eq_of_wf r h, unpack_frameBytes r h⟩

theorem claim_C5_roundtrip_witness :
    wellFormedRow ⟨1, 100, 1065353216, 0, 1077936128, 3212836864, 0, 0, 2147483648⟩ ∧
    ∃ f, pack_sensor_data ⟨1, 100, 1065353216, 0, 1077936128, 3212836864, 0, 0, 2147483648⟩ = some f ∧
      unpack_sensor_data f =
        some ⟨1, 100, 1065353216, 0, 1077936128, 3212836864, 0, 0, 2147483648⟩ :=
  ⟨by decide, claim_C5_roundtrip _ (by decide)⟩
theorem drop_add_append (l1 l2 : List Nat) (n k : Nat) (h : l1.length = n) :
    (l1 ++ l2).drop (n + k) = l2.drop k := by
  subst h
  rw [← List.drop_drop, List.drop_left]

theorem mem_frameBytes_lt (r : Row) : ∀ b ∈ frameBytes r, b < 256 := by
  intro b hb
  unfold frameBytes at hb
  simp only [List.mem_append] at hb
  rcases hb with h | h | h | h | h | h | h | h | h <;> exact mem_leBytes_lt _ _ b h

/-- Claim C8: for every well-formed Sample, the encoded frame is exactly
40 bytes, little-endian, laid out as a 4-byte signed integer at offset 0,
an 8-byte signed integer at offset 4, then seven 4-byte float patterns at
offsets 12, 16, 20, 24, 28, 32, 36 in the order x, y, z, qw, qx, qy, qz
(little-endianness and signedness are expressed by recovering each field
value with the little-endian valuation `leVal` and the two's-complement
reinterpretation `toSigned`). -/
theorem claim_C8_frame_layout (r : Row) (h : wellFormedRow r) :
    pack_sensor_data r = some (frameBytes r) ∧
    (frameBytes r).length = 40 ∧
    toSigned 4 (leVal ((frameBytes r).take 4)) = r.sensor_id ∧
    toSigned 8 (leVal (((frameBytes r).drop 4).take 8)) = r.time ∧
    leVal (((frameBytes r).drop 12).take 4) = r.x ∧
    leVal (((frameBytes r).drop 16).take 4) = r.y ∧
    leVal (((frameBytes r).drop 20).take 4) = r.z ∧
    leVal (((frameBytes r).drop 24).take 4) = r.qw ∧
    leVal (((frameBytes r).drop 28).take 4) = r.qx ∧
    leVal (((frameBytes r).drop 32).take 4) = r.qy ∧
    leVal (((frameBytes r).drop 36).take 4) = r.qz ∧
    (∀ b ∈ frameBytes r, b < 256) := by
  obtain ⟨h1, h2, h3, h4, hx, hy, hz, hqw, hqx, hqy, hqz⟩ := h
  have e4 : (frameBytes r).drop 4 =
      leBytes 8 (twosComp 8 r.time) ++ (leBytes 4 r.x ++ (leBytes 4 r.y ++
      (leBytes 4 r.z ++ (leBytes 4 r.qw ++ (leBytes 4 r.qx ++
      (leBytes 4 r.qy ++ leBytes 4 r.qz)))))) := by
    unfold frameBytes
    rw [drop_leBytes_append]
  have e12 : (frameBytes r).drop 12 =
      leBytes 4 r.x ++ (leBytes 4 r.y ++ (leBytes 4 r.z ++ (leBytes 4 r.qw ++
      (leBytes 4 r.qx ++ (leBytes 4 r.qy ++ leBytes 4 r.qz))))) := by
    unfold frameBytes
    rw [show (12 : Nat) = 4 + 8 by norm_num,
        drop_add_append _ _ 4 8 (leBytes_length 4 _), drop_leBytes_append]
  have e16 : (frameBytes r).drop 16 =
      leBytes 4 r.y ++ (leBytes 4 r.z ++ (leBytes 4 r.qw ++
      (leBytes 4 r.qx ++ (leBytes 4 r.qy ++ leBytes 4 r.qz)))) := by
    rw [show (16 : Nat) = 12 + 4 by norm_num, ← List.drop_drop, e12,
        drop_leBytes_append]
  have e20 : (frameBytes r).drop 20 =
      leBytes 4 r.z ++ (leBytes 4 r.qw ++ (leBytes 4 r.qx ++
      (leBytes 4 r.qy ++ leBytes 4 r.qz))) := by
    rw [show (20 : Nat) = 16 + 4 by norm_num, ← List.drop_drop, e16,
        drop_leBytes_append]
  have e24 : (frameBytes r).drop 24 =
      leBytes 4 r.qw ++ (leBytes 4 r.qx ++ (leBytes 4 r.qy ++ leBytes 4 r.qz)) := by
    rw [show (24 : Nat) = 20 + 4 by norm_num, ← List.drop_drop, e20,
        drop_leBytes_append]
  have e28 : (frameBytes r).drop 28 =
      leBytes 4 r.qx ++ (leBytes 4 r.qy ++ leBytes 4 r.qz) := by
    rw [show (28 : Nat) = 24 + 4 by norm_num, ← List.drop_drop, e24,
        drop_leBytes_append]
  have e32 : (frameBytes r).drop 32 = leBytes 4 r.qy ++ leBytes 4 r.qz := by
    rw [show (32 : Nat) = 28 + 4 by norm_num, ← List.drop_drop, e28,
        drop_leBytes_append]
  have e36 : (frameBytes r).drop 36 = leBytes 4 r.qz := by
    rw [show (36 : Nat) = 32 + 4 by norm_num, ← List.drop_drop, e32,
        drop_leBytes_append]
  refine ⟨pack_eq_of_wf r ⟨h1, h2, h3, h4, hx, hy, hz, hqw, hqx, hqy, hqz⟩,
    frameBytes_length r, ?_, ?_, ?_, ?_, ?_, ?_, ?_, ?_, ?_, mem_frameBytes_lt r⟩
  · conv_lhs => rw [frameBytes, take_leBytes_append]
    exact toSigned_twosComp_four r.sensor_id h1 h2
  · rw [e4, take_leBytes_append]
    exact toSigned_twosComp_eight r.time h3 h4
  · rw [e12, take_leBytes_append]
    exact leVal_leBytes_of_lt r.x hx
  · rw [e16, take_leBytes_append]
    exact leVal_leBytes_of_lt r.y hy
  · rw [e20, take_leBytes_append]
    exact leVal_leBytes_of_lt r.z hz
  · rw [e24, take_leBytes_append]
    exact leVal_leBytes_of_lt r.qw hqw
  · rw [e28, take_leBytes_append]
    exact leVal_leBytes_of_lt r.qx hqx
  · rw [e32, take_leBytes_append]
    exact leVal_leBytes_of_lt r.qy hqy
  · rw [e36, take_leBytes_self]
    exact leVal_leBytes_of_lt r.qz hqz

theorem claim_C8_frame_layout_witness :
    wellFormedRow ⟨3, 500, 1065353216, 0, 0, 0, 0, 0, 0⟩ ∧
    (frameBytes ⟨3, 500, 1065353216, 0, 0, 0, 0, 0, 0⟩).length = 40 ∧
    toSigned 4 (leVal ((frameBytes ⟨3, 500, 1065353216, 0, 0, 0, 0, 0, 0⟩).take 4)) = 3 :=
  ⟨by decide, (claim_C8_frame_layout _ (by decide)).2.1,
    (claim_C8_frame_layout ⟨3, 500, 1065353216, 0, 0, 0, 0, 0, 0⟩ (by decide)).2.2.1⟩

/-- Claim C9: encoding succeeds precisely when the integer fields fit
their wire widths — `sensor_id` in the signed 32-bit range and `time` in
the signed 64-bit range; the success condition does not mention the seven
float fields, so no float value causes an encoding failure, and every
well-formed Sample (whose integer fields satisfy exactly these bounds)
encodes successfully. -/
theorem claim_C9_encode_error_iff (r : Row) :
    (pack_sensor_data r).isSome = true ↔
      (-(2 ^ 31) ≤ r.sensor_id ∧ r.sensor_id < 2 ^ 31 ∧
       -(2 ^ 63) ≤ r.time ∧ r.time < 2 ^ 63) := by
  unfold pack_sensor_data
  split <;> simp_all

/-- Claim C10: decoding is total on 40-byte inputs — for every byte list
of length exactly 40 it succeeds, and, when the entries are genuine bytes,
the nine decoded fields all lie in their declared ranges; the decode-error
branch is reachable only when the length differs from 40. -/
theorem claim_C10_decode_total (bs : List Nat) :
    ((unpack_sensor_data bs).isSome = true ↔ bs.length = 40) ∧
    ((∀ b ∈ bs, b < 256) → bs.length = 40 →
      ∃ r, unpack_sensor_data bs = some r ∧ wellFormedRow r) := by
  constructor
  · unfold unpack_sensor_data
    split <;> simp_all
  · intro hb h40
    have hfl : ∀ n : Nat, n + 4 ≤ 40 → leVal ((bs.drop n).take 4) < 2 ^ 32 := by
      intro n hn
      have hk : 4 ≤ (bs.drop n).length := by
        rw [List.length_drop]
        omega
      have hsub : ∀ b ∈ (bs.drop n).take 4, b < 256 := fun b hbm =>
        hb b (List.drop_subset n bs (List.take_subset 4 _ hbm))
      have hlt := leVal_lt _ hsub
      rw [List.length_take, Nat.min_eq_left hk] at hlt
      calc leVal ((bs.drop n).take 4) < 256 ^ 4 := hlt
        _ = 2 ^ 32 := by norm_num
    have hb0 : ∀ b ∈ bs.take 4, b < 256 := fun b hbm => hb b (List.take_subset _ _ hbm)
    have hv0 : leVal (bs.take 4) < 2 ^ 32 := by
      have hlt := leVal_lt _ hb0
      rw [List.length_take, Nat.min_eq_left (by omega)] at hlt
      calc leVal (bs.take 4) < 256 ^ 4 := hlt
        _ = 2 ^ 32 := by norm_num
    have hv1 : leVal ((bs.drop 4).take 8) < 2 ^ 64 := by
      have hk : 8 ≤ (bs.drop 4).length := by
        rw [List.length_drop]
        omega
      have hsub : ∀ b ∈ (bs.drop 4).take 8, b < 256 := fun b hbm =>
        hb b (List.drop_subset 4 bs (List.take_subset 8 _ hbm))
      have hlt := leVal_lt _ hsub
      rw [List.length_take, Nat.min_eq_left hk] at hlt
      calc leVal ((bs.drop 4).take 8) < 256 ^ 8 := hlt
        _ = 2 ^ 64 := by norm_num
    have hs4 := toSigned_four_range (leVal (bs.take 4)) hv0
    have hs8 := toSigned_eight_range (leVal ((bs.drop 4).take 8)) hv1
    refine ⟨{ sensor_id := toSigned 4 (leVal (bs.take 4))
            , time := toSigned 8 (leVal ((bs.drop 4).take 8))
            , x := leVal (((bs.drop 4).drop 8).take 4)
            , y := leVal ((((bs.drop 4).drop 8).drop 4).take 4)
            , z := leVal (((((bs.drop 4).drop 8).drop 4).drop 4).take 4)
            , qw := leVal ((((((bs.drop 4).drop 8).drop 4).drop 4).drop 4).take 4)
            , qx := leVal (((((((bs.drop 4).drop 8).drop 4).drop 4).drop 4).drop 4).take 4)
            , qy := leVal ((((((((bs.drop 4).drop 8).drop 4).drop 4).drop 4).drop 4).drop 4).take 4)
            , qz := leVal (((((((((bs.drop 4).drop 8).drop 4).drop 4).drop 4).drop 4).drop 4).drop 4).take 4) }
          , ?_, ?_⟩
    · unfold unpack_sensor_data
      rw [if_pos h40]
    · unfold wellFormedRow
      refine ⟨hs4.1, hs4.2, hs8.1, hs8.2, ?_, ?_, ?_, ?_, ?_, ?_, ?_⟩ <;>
        simp only [List.drop_drop] <;> exact hfl _ (by omega)

theorem claim_C10_decode_total_witness :
    ((unpack_sensor_data (List.replicate 40 7)).isSome = true ↔
      (List.replicate 40 7 : List Nat).length = 40) ∧
    (∀ b ∈ (List.replicate 40 7 : List Nat), b < 256) ∧
    ∃ r, unpack_sensor_data (List.replicate 40 7) = some r ∧ wellFormedRow r :=
  ⟨(claim_C10_decode_total (List.replicate 40 7)).1, by decide,
    (claim_C10_decode_total (List.replicate 40 7)).2 (by decide) (by decide)⟩

/-! ### Publisher lemmas -/

theorem emitsOf_append (a b : List PubEvent) :
    emitsOf (a ++ b) = emitsOf a ++ emitsOf b := by
  induction a with
  | nil => rfl
  | cons e a ih =>
    cases e <;> simp [emitsOf, ih]

theorem runPass_eq_spec (rs : List Row) (t : Int)
    (h : ∀ r ∈ rs, wellFormedRow r) :
    runPass rs (diffsFrom t (rs.map (·.time))) none =
      (specLoopEvents (some t) rs, true) := by
  induction rs generalizing t with
  | nil => rfl
  | cons r rs ih =>
    have hr : wellFormedRow r := h r (List.mem_cons_self r rs)
    have hrs : ∀ x ∈ rs, wellFormedRow x := fun x hx => h x (List.mem_cons_of_mem r hx)
    show runPass (r :: rs) ((r.time - t) :: diffsFrom r.time (rs.map (·.time))) none = _
    rw [runPass]
    simp only [reduceCtorEq, if_false, pack_eq_of_wf r hr, List.head?_cons,
      List.tail_cons, Option.map_none', ih r.time hrs, specLoopEvents]

theorem replayRun_of_wf (rows : List Row) (h0 : rows ≠ [])
    (h : ∀ r ∈ rows, wellFormedRow r) :
    replayRun true rows none =
      { events := PubEvent.sleep 1 ::
          (specLoopEvents none rows ++ [PubEvent.emit sentinelTopic [], PubEvent.sleep 1])
      , sentinelSent := true, socketClosed := true, contextTerminated := true } := by
  cases rows with
  | nil => exact absurd rfl h0
  | cons r rs =>
    have hr : wellFormedRow r := h r (List.mem_cons_self r rs)
    have hrs : ∀ x ∈ rs, wellFormedRow x := fun x hx => h x (List.mem_cons_of_mem r hx)
    have htd : timeDiffs ((r :: rs).map (·.time)) =
        some ((r.time - r.time) :: diffsFrom r.time (rs.map (·.time))) := rfl
    have hpass : runPass (r :: rs)
        ((r.time - r.time) :: diffsFrom r.time (rs.map (·.time))) none =
        (specLoopEvents none (r :: rs), true) := by
      rw [runPass]
      simp only [reduceCtorEq, if_false, pack_eq_of_wf r hr, List.head?_cons,
        List.tail_cons, Option.map_none', runPass_eq_spec rs r.time hrs,
        specLoopEvents, sub_self, lt_irrefl, if_false, List.nil_append]
    unfold replayRun
    rw [if_pos rfl, htd]
    simp only [replayAfterDiffs]
    rw [hpass]
    rfl

theorem specLoopEvents_emits (p : Option Int) (rs : List Row) :
    emitsOf (specLoopEvents p rs) =
      rs.map fun r => (topicFor r.sensor_id, frameBytes r) := by
  induction rs generalizing p with
  | nil => rfl
  | cons r rs ih =>
    show emitsOf (PubEvent.emit (topicFor r.sensor_id) (frameBytes r) :: _) = _
    rw [emitsOf]
    cases p with
    | none =>
      simp only [List.nil_append, ih, List.map_cons]
    | some tp =>
      by_cases hd : 0 < r.time - tp
      · simp only [if_pos hd, List.cons_append, List.nil_append, emitsOf, ih,
          List.map_cons]
      · simp only [if_neg hd, List.nil_append, ih, List.map_cons]

/-! ### Claims about the publisher -/

/-- Claim C6: the publisher processes each sample by first emitting its
frame on its per-sensor topic and then suspending for
`(currentTimestamp - previousTimestamp) / 1000` seconds when that value
is positive, and not at all when it is zero or negative; the first sample
has zero delay; non-monotonic timestamps never cause publisher failure
(the run still completes and sends the sentinel).  The reference event
stream `specLoopEvents` is written from exactly these words; the code's
run additionally has the 1-second startup pause, the sentinel emission
and the 1-second pause after it.  The nonemptiness hypothesis is needed
because a 0-row source fails for a reason unrelated to the per-sample
behaviour the claim describes (the `IndexError` at em_util.py line 59,
raised before any sample or timestamp is examined); on a nonempty source
every sample, monotone or not, is processed exactly as claimed. -/
theorem claim_C6_emit_then_wait (rows : List Row) (h0 : rows ≠ [])
    (h : ∀ r ∈ rows, wellFormedRow r) :
    (replayRun true rows none).events =
      PubEvent.sleep 1 ::
        (specLoopEvents none rows ++
          [PubEvent.emit sentinelTopic [], PubEvent.sleep 1]) ∧
    (replayRun true rows none).sentinelSent = true := by
  rw [replayRun_of_wf rows h0 h]
  exact ⟨rfl, rfl⟩

theorem claim_C6_emit_then_wait_witness :
    ([(⟨1, 100, 0, 0, 0, 0, 0, 0, 0⟩ : Row), ⟨2, 50, 0, 0, 0, 0, 0, 0, 0⟩,
        ⟨3, 50, 0, 0, 0, 0, 0, 0, 0⟩] ≠ ([] : List Row)) ∧
    (∀ r ∈ [(⟨1, 100, 0, 0, 0, 0, 0, 0, 0⟩ : Row), ⟨2, 50, 0, 0, 0, 0, 0, 0, 0⟩,
        ⟨3, 50, 0, 0, 0, 0, 0, 0, 0⟩], wellFormedRow r) ∧
    (replayRun true [(⟨1, 100, 0, 0, 0, 0, 0, 0, 0⟩ : Row), ⟨2, 50, 0, 0, 0, 0, 0, 0, 0⟩,
        ⟨3, 50, 0, 0, 0, 0, 0, 0, 0⟩] none).sentinelSent = true :=
  ⟨by decide, by decide,
    (claim_C6_emit_then_wait
      [⟨1, 100, 0, 0, 0, 0, 0, 0, 0⟩, ⟨2, 50, 0, 0, 0, 0, 0, 0, 0⟩,
       ⟨3, 50, 0, 0, 0, 0, 0, 0, 0⟩] (by decide) (by decide)).2⟩

/-- Claim C7, counterexample: a non-looping replay of a 0-row record
source emits zero messages and NO sentinel — the claim asserts every
n-row source yields its n per-sensor messages followed by exactly one
sentinel, but on an empty source `df['time'].iloc[0]` (em_util.py line 59)
raises `IndexError` inside the `try`, the generic handler catches it, and
neither the loop nor the sentinel send at line 79 is ever reached. -/
theorem claim_C7_counterexample :
    emitsOf ((replayRun true ([] : List Row) none).events) = [] ∧
    (replayRun true ([] : List Row) none).sentinelSent = false :=
  ⟨rfl, rfl⟩

/-- Claim C7 as amended: a non-looping replay of a record source with
n ≥ 1 rows emits exactly the n per-sensor messages in source order,
followed by exactly one sentinel message on `control/done` with empty
payload, and nothing after it (the message sequence of the whole run is
exactly that list); a 0-row source instead fails before the loop and
emits no message at all, sentinel included. -/
theorem claim_C7_exact_messages (rows : List Row) (h0 : rows ≠ [])
    (h : ∀ r ∈ rows, wellFormedRow r) :
    emitsOf (replayRun true rows none).events =
      (rows.map fun r => (topicFor r.sensor_id, frameBytes r)) ++
        [(sentinelTopic, [])] := by
  rw [replayRun_of_wf rows h0 h]
  show emitsOf (PubEvent.sleep 1 :: _) = _
  rw [emitsOf, emitsOf_append, specLoopEvents_emits]
  rfl

theorem claim_C7_exact_messages_witness :
    ([(⟨1, 100, 0, 0, 0, 0, 0, 0, 0⟩ : Row), ⟨2, 220, 0, 0, 0, 0, 0, 0, 0⟩,
        ⟨1, 350, 0, 0, 0, 0, 0, 0, 0⟩, ⟨3, 500, 0, 0, 0, 0, 0, 0, 0⟩] ≠
      ([] : List Row)) ∧
    (∀ r ∈ [(⟨1, 100, 0, 0, 0, 0, 0, 0, 0⟩ : Row), ⟨2, 220, 0, 0, 0, 0, 0, 0, 0⟩,
        ⟨1, 350, 0, 0, 0, 0, 0, 0, 0⟩, ⟨3, 500, 0, 0, 0, 0, 0, 0, 0⟩],
      wellFormedRow r) ∧
    emitsOf (replayRun true [(⟨1, 100, 0, 0, 0, 0, 0, 0, 0⟩ : Row),
        ⟨2, 220, 0, 0, 0, 0, 0, 0, 0⟩, ⟨1, 350, 0, 0, 0, 0, 0, 0, 0⟩,
        ⟨3, 500, 0, 0, 0, 0, 0, 0, 0⟩] none).events =
      ([(⟨1, 100, 0, 0, 0, 0, 0, 0, 0⟩ : Row), ⟨2, 220, 0, 0, 0, 0, 0, 0, 0⟩,
        ⟨1, 350, 0, 0, 0, 0, 0, 0, 0⟩, ⟨3, 500, 0, 0, 0, 0, 0, 0, 0⟩].map
          fun r => (topicFor r.sensor_id, frameBytes r)) ++ [(sentinelTopic, [])] :=
  ⟨by decide, by decide,
    claim_C7_exact_messages
      [⟨1, 100, 0, 0, 0, 0, 0, 0, 0⟩, ⟨2, 220, 0, 0, 0, 0, 0, 0, 0⟩,
       ⟨1, 350, 0, 0, 0, 0, 0, 0, 0⟩, ⟨3, 500, 0, 0, 0, 0, 0, 0, 0⟩]
      (by decide) (by decide)⟩

/-- Claim C2, counterexample: with record timestamps `[100, 220, 500]` ms
the publisher suspends 0 seconds (not approximately 0.12 s) between the
first and second emissions, and 0.12 s (not 0.28 s) between the second and
third: the code sleeps `time_diffs[i]` AFTER emitting row `i`, and
`time_diffs` has a 0 prepended, so every inter-sample delay is applied one
emission too late. -/
theorem claim_C2_counterexample :
    gapAfterEmit 0 ((replayRun true
      [⟨1, 100, 0, 0, 0, 0, 0, 0, 0⟩, ⟨2, 220, 0, 0, 0, 0, 0, 0, 0⟩,
       ⟨3, 500, 0, 0, 0, 0, 0, 0, 0⟩] none).events) = 0 ∧
    gapAfterEmit 1 ((replayRun true
      [⟨1, 100, 0, 0, 0, 0, 0, 0, 0⟩, ⟨2, 220, 0, 0, 0, 0, 0, 0, 0⟩,
       ⟨3, 500, 0, 0, 0, 0, 0, 0, 0⟩] none).events) = 3 / 25 := by
  constructor <;>
    norm_num [replayRun, runPass, timeDiffs, diffsFrom, pack_sensor_data,
      gapAfterEmit, dropThroughEmit, sleepsUntilNextEmit]

/-- Claim C2 as amended: for records with timestamps `[100, 220, 500]` ms
the publisher suspends 0 seconds between the first and second emissions,
approximately 0.12 s (exactly 3/25 s) between the second and third, and
approximately 0.28 s (exactly 7/25 s) between the third emission and the
sentinel — each inter-sample delay `(t_i - t_{i-1})/1000` is applied
after emitting sample `i`, i.e. one emission later than the claim
states. -/
theorem claim_C2_amended_gaps (r1 r2 r3 : Row)
    (h1 : wellFormedRow r1) (h2 : wellFormedRow r2) (h3 : wellFormedRow r3)
    (t1 : r1.time = 100) (t2 : r2.time = 220) (t3 : r3.time = 500) :
    gapAfterEmit 0 ((replayRun true [r1, r2, r3] none).events) = 0 ∧
    gapAfterEmit 1 ((replayRun true [r1, r2, r3] none).events) = 3 / 25 ∧
    gapAfterEmit 2 ((replayRun true [r1, r2, r3] none).events) = 7 / 25 := by
  have h : ∀ r ∈ [r1, r2, r3], wellFormedRow r := by
    intro r hr
    simp only [List.mem_cons, List.not_mem_nil, or_false] at hr
    rcases hr with rfl | rfl | rfl
    exacts [h1, h2, h3]
  rw [replayRun_of_wf [r1, r2, r3] (List.cons_ne_nil _ _) h]
  simp only [specLoopEvents, t1, t2, t3]
  norm_num [gapAfterEmit, dropThroughEmit, sleepsUntilNextEmit]

theorem claim_C2_amended_gaps_witness :
    wellFormedRow (⟨1, 100, 0, 0, 0, 0, 0, 0, 0⟩ : Row) ∧
    (⟨1, 100, 0, 0, 0, 0, 0, 0, 0⟩ : Row).time = 100 ∧
    gapAfterEmit 2 ((replayRun true
      [(⟨1, 100, 0, 0, 0, 0, 0, 0, 0⟩ : Row), ⟨2, 220, 0, 0, 0, 0, 0, 0, 0⟩,
       ⟨3, 500, 0, 0, 0, 0, 0, 0, 0⟩] none).events) = 7 / 25 :=
  ⟨by decide, by decide,
    (claim_C2_amended_gaps ⟨1, 100, 0, 0, 0, 0, 0, 0, 0⟩ ⟨2, 220, 0, 0, 0, 0, 0, 0, 0⟩
      ⟨3, 500, 0, 0, 0, 0, 0, 0, 0⟩ (by decide) (by decide) (by decide)
      (by decide) (by decide) (by decide)).2.2⟩

/-- Claim C3, counterexample: an external interruption arriving before the
first row is processed (modelled by `cut = some 0`, the
`KeyboardInterrupt`/`SystemExit` path of em_util.py line 82) releases the
socket and context but emits nothing at all — in particular no sentinel
on `control/done`: the sentinel send at line 79 sits inside the `try`
after the loop, so any exception skips it. -/
theorem claim_C3_counterexample :
    (replayRun true [⟨1, 100, 0, 0, 0, 0, 0, 0, 0⟩] (some 0)).sentinelSent = false ∧
    emitsOf ((replayRun true [⟨1, 100, 0, 0, 0, 0, 0, 0, 0⟩] (some 0)).events) = [] ∧
    (replayRun true [⟨1, 100, 0, 0, 0, 0, 0, 0, 0⟩] (some 0)).socketClosed = true := by
  refine ⟨by decide, ?_, by decide⟩
  show emitsOf [PubEvent.sleep 1] = []
  rfl

/-- Claim C3 as amended: on every publisher termination path other than a
missing source, the channel resource is released unconditionally (socket
closed and context terminated, the `finally` block), but the sentinel is
emitted only when the delay computation succeeds (nonempty source) AND
the replay pass completes normally; an empty source, a mid-stream
failure, or an external interruption terminates the run WITHOUT emitting
the sentinel. -/
theorem claim_C3_amended_cleanup (rows : List Row) (cut : Option Nat) :
    (replayRun true rows cut).socketClosed = true ∧
    (replayRun true rows cut).contextTerminated = true ∧
    ((replayRun true rows cut).sentinelSent = true ↔
      ∃ ds, timeDiffs (rows.map (·.time)) = some ds ∧
        (runPass rows ds cut).2 = true) := by
  cases hd : timeDiffs (rows.map (·.time)) with
  | none => simp [replayRun, replayAfterDiffs, hd]
  | some ds =>
    rcases Bool.eq_false_or_eq_true ((runPass rows ds cut).2) with h2 | h2 <;>
      simp [replayRun, replayAfterDiffs, hd, h2]

/-! ### Subscriber lemmas -/

theorem isPrefixOf_append_cancel (l a b : List Char) :
    (l ++ a).isPrefixOf (l ++ b) = a.isPrefixOf b := by
  induction l with
  | nil => rfl
  | cons c l ih => simp [List.isPrefixOf, ih]

theorem sentinel_not_before_sensor (sid : Int) :
    sentinelTopic.isPrefixOf (topicFor sid) = false := by
  unfold sentinelTopic topicFor
  rw [show ("control/done".toList : List Char) =
        'c' :: "ontrol/done".toList from rfl,
      show ("sensor/em/".toList : List Char) =
        's' :: "ensor/em/".toList from rfl]
  rw [List.cons_append]
  show (('c' == 's') && _) = false
  rw [show ('c' == 's') = false from rfl, Bool.false_and]

/-! ### Claims about the subscriber -/

/-- Claim C1, counterexample: a malformed payload (10 bytes instead of 40)
does NOT merely get reported — `struct.error` is not among the exceptions
caught by `consume`'s `except (KeyboardInterrupt, SystemExit)` clause, so
the decode failure terminates the receive loop: a well-formed message
queued right after the corrupt one is never surfaced, while the same
well-formed message alone would be. -/
theorem claim_C1_counterexample :
    (consume [(topicFor 1, List.replicate 10 0),
              (topicFor 1, List.replicate 40 0)]).surfaced = [] ∧
    (consume [(topicFor 1, List.replicate 10 0),
              (topicFor 1, List.replicate 40 0)]).exitKind = LoopExit.crashed ∧
    (consume [(topicFor 1, List.replicate 40 0)]).surfaced ≠ [] := by
  refine ⟨by decide, by decide, by decide⟩

/-- Claim C1 as amended: when a delivered message has an undecodable
payload, every earlier well-formed message has been surfaced, but the
receive loop terminates at the corrupt frame (the uncaught decode
exception), the messages after it are never processed, and the socket is
still released by the `finally` block. -/
theorem claim_C1_amended_decode_kills_loop
    (pre : List (List Char × List Nat)) (t : List Char) (p : List Nat)
    (rest : List (List Char × List Nat))
    (hpre : ∀ m ∈ pre, m.1 ≠ sentinelTopic ∧ (unpack_sensor_data m.2).isSome = true)
    (ht : t ≠ sentinelTopic) (hp : unpack_sensor_data p = none) :
    consume (pre ++ (t, p) :: rest) =
      { surfaced := pre.filterMap fun m => unpack_sensor_data m.2
      , exitKind := LoopExit.crashed
      , socketClosed := true } := by
  have hloop : ∀ pre' : List (List Char × List Nat),
      (∀ m ∈ pre', m.1 ≠ sentinelTopic ∧ (unpack_sensor_data m.2).isSome = true) →
      consumeLoop (pre' ++ (t, p) :: rest) =
        (pre'.filterMap fun m => unpack_sensor_data m.2, LoopExit.crashed) := by
    intro pre' hpre'
    induction pre' with
    | nil =>
      show consumeLoop ((t, p) :: rest) = _
      rw [consumeLoop]
      rw [if_neg ht, hp]
      rfl
    | cons m pre'' ih =>
      obtain ⟨hmt, hms⟩ := hpre' m (List.mem_cons_self m pre'')
      obtain ⟨s, hs⟩ := Option.isSome_iff_exists.mp hms
      show consumeLoop (m :: (pre'' ++ (t, p) :: rest)) = _
      rw [consumeLoop]
      cases m with
      | mk mt mp =>
        simp only at hmt hs ⊢
        rw [if_neg hmt, hs,
          ih fun x hx => hpre' x (List.mem_cons_of_mem _ hx),
          List.filterMap_cons, hs]
  unfold consume
  rw [hloop pre hpre]

theorem claim_C1_amended_decode_kills_loop_witness :
    ((topicFor 2 : List Char) ≠ sentinelTopic) ∧
    unpack_sensor_data (List.replicate 10 0) = none ∧
    consume ([(topicFor 1, List.replicate 40 0)] ++
        (topicFor 2, List.replicate 10 0) :: [(topicFor 3, List.replicate 40 5)]) =
      { surfaced := [(topicFor 1, List.replicate 40 0)].filterMap
          fun m => unpack_sensor_data m.2
      , exitKind := LoopExit.crashed
      , socketClosed := true } :=
  ⟨by decide, by decide,
    claim_C1_amended_decode_kills_loop [(topicFor 1, List.replicate 40 0)]
      (topicFor 2) (List.replicate 10 0) [(topicFor 3, List.replicate 40 5)]
      (by decide) (by decide) (by decide)⟩

/-- Claim C4, counterexample: ZMQ subscription matching is prefix
matching, so with `N = 1` the single sensor subscription `sensor/em/1` is
a prefix of the topic `sensor/em/10`: a message for sensor id 10 —
outside `1..1` — IS delivered to the subscriber, and the receive loop
decodes and surfaces it.  (The claim's own example, sensor 5 against
`N = 3`, happens to hold, but the universal statement is false.) -/
theorem claim_C4_counterexample :
    delivered 1 (topicFor 10) = true ∧
    ¬(1 ≤ (10 : Int) ∧ (10 : Int) ≤ 1) ∧
    (consume [(topicFor 10, List.replicate 40 0)]).surfaced.length = 1 := by
  refine ⟨by decide, by decide, by decide⟩

/-- Claim C4 as amended: the subscriber subscribes exactly to the
per-sensor topics for ids `1..N` plus the sentinel topic, and a message
on a per-sensor topic is delivered iff the decimal rendering of some
subscribed id `i ∈ 1..N` is a string prefix of the decimal rendering of
the message's sensor id — exact-id filtering only holds up to ZMQ's
prefix matching (e.g. sensor 5 is filtered for `N = 3`, but sensor 10 is
delivered for `N ≥ 1`). -/
theorem claim_C4_amended_prefix_filter (N : Nat) (sid : Int) :
    (subTopics N =
      ((List.range N).map fun i => topicFor ((i + 1 : Nat) : Int)) ++ [sentinelTopic]) ∧
    (delivered N (topicFor sid) = true ↔
      ∃ i : Nat, 1 ≤ i ∧ i ≤ N ∧
        (toString ((i : Int))).toList.isPrefixOf ((toString sid).toList) = true) := by
  refine ⟨rfl, ?_⟩
  unfold delivered subTopics
  rw [List.any_append]
  simp only [List.any_cons, List.any_nil, Bool.or_false]
  rw [sentinel_not_before_sensor, Bool.or_false, List.any_eq_true]
  constructor
  · rintro ⟨x, hx, hpx⟩
    obtain ⟨a, ha, rfl⟩ := List.mem_map.mp hx
    rw [List.mem_range] at ha
    refine ⟨a + 1, by omega, by omega, ?_⟩
    rw [topicFor, topicFor, isPrefixOf_append_cancel] at hpx
    exact hpx
  · rintro ⟨i, hi1, hi2, hp⟩
    refine ⟨topicFor ((i - 1 + 1 : Nat) : Int),
      List.mem_map.mpr ⟨i - 1, List.mem_range.mpr (by omega), rfl⟩, ?_⟩
    rw [topicFor, topicFor, isPrefixOf_append_cancel]
    rw [show (i - 1 + 1 : Nat) = i by omega]
    exact hp

